import Mathlib

/-!
Verification of the Backchodi Battle game-session engine
(src/server/backchodi-battle-puch.py).

The Python module is a thin orchestration layer around an in-memory
session store.  We shallow-embed the Game Session Engine: the data model
(`Player`, `GameSession`, per-caller buckets), the session-store accessor
`_user_sessions`, the three mutating tool operations
(`start_backchodi_battle`, `join_battle`, `send_backchodi`) and the
fallback scoring heuristic `generate_score`.

External collaborators (the Grok-backed Content Generator and the random
number source) are modelled as explicit parameters: an `Oracle` of pure
functions supplies every generated text and every score that
`score_message_with_grok` would return, and `generate_score` takes its
uniform random perturbation as an argument.  Machine floats are modelled
as rationals.  Python `str.lower` is modelled as ASCII lowercasing
(`String.toLower`); Python exceptions (`IndexError` from a list index,
re-raised as an MCP internal error) are modelled with `Except`.
-/

namespace Backchodi

/-- Game mode, from the Python `GameMode` enum. -/
inductive GameMode
  | solo
  | duel
deriving DecidableEq

/-- Game state, from the Python `GameState` enum. -/
inductive GameState
  | waiting
  | active
  | scoring
  | finished
deriving DecidableEq

/-- A player slot, from the Python `Player` dataclass. -/
structure Player where
  id : String
  name : String
  score : ℚ := 0
  messages : List String := []
deriving DecidableEq

instance : Inhabited Player := ⟨⟨"", "", 0, []⟩⟩

/-- A battle session, from the Python `GameSession` dataclass. -/
structure GameSession where
  session_id : String
  mode : GameMode
  state : GameState
  created_at : ℚ
  players : List Player := []
  ai_messages : List String := []
  current_round : Nat := 0
  max_rounds : Nat := 5
  winner : Option String := none
deriving DecidableEq

/-- Per-caller session dict (`user_game_sessions[uid]`), insertion ordered. -/
abbrev Bucket := List (String × GameSession)

/-- The global store `user_game_sessions`, insertion ordered. -/
abbrev Store := List (String × Bucket)

/-- Log of scoring calls made during one operation: (message, ai_challenge). -/
abbrev ScoreLog := List (String × String)

/-- Structured protocol-level errors raised through `McpError`. -/
inductive McpErr
  | invalidParams (msg : String)
  | internalError (msg : String)
deriving DecidableEq

/-- Python dict assignment `d[k] = v`: replace in place, else append. -/
def insertAssoc {α : Type} (b : List (String × α)) (k : String) (v : α) :
    List (String × α) :=
  if b.any (fun e => e.1 = k) then
    b.map (fun e => if e.1 = k then (k, v) else e)
  else b ++ [(k, v)]

/-- The external Content Generator and score source, as pure functions.
Each field corresponds to one `generate_grok_*` / scoring entry point; the
engine only threads their results through, so a deterministic oracle
captures one fixed run of the nondeterministic collaborator. -/
structure Oracle where
  genBackchodi : String → String → String
  score : String → String → String → ℚ
  scoreFeedback : String → String → String → String
  verdict : ℚ → String → String
  winnerAnnouncement : String → ℚ → String → ℚ → String
  waitingMessage : String → String

/-- `needle in hay` on Python strings (substring containment). -/
def strContains (hay needle : String) : Bool :=
  decide (needle.data <:+: hay.data)

/-- The fixed slang-word list of `generate_score`. -/
def slangWords : List String := ["lagta", "dekh", "sun", "arre", "yaar", "bhai"]

/-- The fixed emphasis characters of `generate_score`. -/
def emphasisChars : List Char := ['!', '😂', '🔥', '💯']

/-- `generate_score(message)` with the `random.uniform(-1.0, 1.0)` draw
made explicit as the argument `r`. -/
def generate_score (message : String) (r : ℚ) : ℚ :=
  let score : ℚ := 5
  let length := message.length
  let score :=
    if 20 ≤ length ∧ length ≤ 100 then score + 1
    else if 100 < length then score + 1/2
    else score
  let score :=
    if slangWords.any (fun w => strContains message.toLower w) then score + 1
    else score
  let score :=
    if emphasisChars.any (fun c => c ∈ message.data) then score + 1/2
    else score
  let score := score + r
  max 1 (min 10 score)

/-- `_user_sessions(puch_user_id)`: raises `INVALID_PARAMS` on an empty
caller id, otherwise `setdefault(puch_user_id, {})`. Returns the updated
store together with the caller's bucket. -/
def _user_sessions (store : Store) (uid : String) :
    Except McpErr (Store × Bucket) :=
  if uid = "" then .error (.invalidParams "puch_user_id is required")
  else
    match store.lookup uid with
    | some b => .ok (store, b)
    | none => .ok (store ++ [(uid, [])], [])

/-- `s.state in [GameState.WAITING, GameState.ACTIVE]`. -/
def inFlight (s : GameSession) : Bool :=
  s.state = GameState.waiting ∨ s.state = GameState.active

/-- The session built by the create operation before it is returned:
solo goes straight to `active`, round 1, with the opening challenge
appended; duel stays `waiting`, round 0, no challenge. -/
def createSession (uid suffix : String) (now : ℚ) (mode : GameMode)
    (player_name opener : String) : GameSession :=
  match mode with
  | .solo =>
      { session_id := uid ++ "_" ++ suffix
        mode := .solo
        state := .active
        created_at := now
        players := [{ id := "player_1", name := player_name }]
        ai_messages := [opener]
        current_round := 1 }
  | .duel =>
      { session_id := uid ++ "_" ++ suffix
        mode := .duel
        state := .waiting
        created_at := now
        players := [{ id := "player_1", name := player_name }]
        ai_messages := []
        current_round := 0 }

/-- Result of `start_backchodi_battle`, one constructor per returned text. -/
inductive StartResult
  | conflict (session_id : String)
  | soloStarted (session_id : String) (round maxR : Nat) (opener : String)
  | duelCreated (session_id : String) (creator : String)
deriving DecidableEq

/-- The `TextContent` strings produced by `start_backchodi_battle`. -/
def renderStart : StartResult → String
  | .conflict sid => "Game already in progress! Session ID: " ++ sid
  | .soloStarted sid round maxR opener =>
      "🎮 **Backchodi Battle Started!** \n**Mode:** Solo Battle\n**Session ID:** "
        ++ sid ++ "\n**Round:** " ++ toString round ++ "/" ++ toString maxR
        ++ "\n\n🤖 **AI says:** " ++ opener
        ++ "\n\nNow it\x27s your turn! Reply with your best backchodi! 🔥"
  | .duelCreated sid creator =>
      "🎮 **Backchodi Battle Created!** \n**Mode:** Duel Battle\n**Session ID:** "
        ++ sid ++ "\n**Creator:** " ++ creator
        ++ "\n\nWaiting for opponent to join! Share this session ID: `" ++ sid
        ++ "`\nOpponent can join using the join_battle tool with this session ID."

/-- Body of `start_backchodi_battle` acting on the caller's bucket.
`suffix` stands for the fresh `uuid4().hex[:8]`, `now` for `time.time()`. -/
def startBucket (O : Oracle) (bucket : Bucket) (uid : String) (mode : GameMode)
    (player_name suffix : String) (now : ℚ) : Bucket × StartResult :=
  match bucket.filter (fun e => inFlight e.2) with
  | e :: _ => (bucket, .conflict e.2.session_id)
  | [] =>
      let sid := uid ++ "_" ++ suffix
      let opener := O.genBackchodi "Solo battle start" player_name
      let s := createSession uid suffix now mode player_name opener
      match mode with
      | .solo =>
          (insertAssoc bucket sid s, .soloStarted sid s.current_round s.max_rounds opener)
      | .duel => (insertAssoc bucket sid s, .duelCreated sid player_name)

/-- Result of `join_battle`, one constructor per returned text. -/
inductive JoinResult
  | invalidSession
  | notDuel
  | notAccepting
  | battleFull
  | joined (p1name p2name : String) (round maxR : Nat) (opener : String)
deriving DecidableEq

/-- Whether a `JoinResult` is the success outcome. -/
def JoinResult.isJoined : JoinResult → Bool
  | .joined _ _ _ _ _ => true
  | _ => false

/-- The opening challenge requested by a successful `join_battle`
(`context="Duel battle topic"`, target `"players[0].name vs player_name"`). -/
def joinOpener (O : Oracle) (s : GameSession) (player_name : String) : String :=
  O.genBackchodi "Duel battle topic"
    (((s.players ++ [({ id := "player_2", name := player_name } : Player)]).getD 0
        default).name ++ " vs " ++ player_name)

/-- The session produced by a successful `join_battle`. -/
def joinedSession (O : Oracle) (s : GameSession) (player_name : String) :
    GameSession :=
  { s with players := s.players ++ [{ id := "player_2", name := player_name }],
           state := .active, current_round := 1,
           ai_messages := s.ai_messages ++ [joinOpener O s player_name] }

/-- Body of `join_battle` acting on one session (already looked up).
A Python `IndexError` on `session.players[1]` becomes an internal error. -/
def joinSession (O : Oracle) (s : GameSession) (player_name : String) :
    Except McpErr (GameSession × JoinResult) :=
  if s.mode ≠ GameMode.duel then .ok (s, .notDuel)
  else if s.state ≠ GameState.waiting then .ok (s, .notAccepting)
  else if 2 ≤ s.players.length then .ok (s, .battleFull)
  else
    let players1 := s.players ++ [{ id := "player_2", name := player_name }]
    let s2 := joinedSession O s player_name
    match players1[0]?, players1[1]? with
    | some q1, some q2 =>
        .ok (s2, .joined q1.name q2.name s2.current_round s2.max_rounds
          (joinOpener O s player_name))
    | _, _ => .error (.internalError "list index out of range")

/-- Result of `send_backchodi`, one constructor per returned text. -/
inductive SendResult
  | invalidSession
  | notActive
  | playerNotFound
  | soloRound (round maxR : Nat) (score : ℚ) (feedback : String) (total : ℚ)
      (nextRound : Nat) (aiResponse : String)
  | soloFinished (round maxR : Nat) (score : ℚ) (feedback : String) (total : ℚ)
      (average : ℚ) (verdict : String)
  | duelFinished (name1 : String) (avg1 : ℚ) (name2 : String) (avg2 : ℚ)
      (announcement : String)
  | duelWaiting (round maxR msgCount : Nat) (waitingFor wmsg : String)
deriving DecidableEq

/-- Total messages submitted by all players
(`len([msg for p in session.players for msg in p.messages])`). -/
def totalMsgs (players : List Player) : Nat :=
  (players.map (fun p => p.messages.length)).sum

/-- Append the new message to the player at index `idx`
(in-place mutation of the found `player` in Python). -/
def appendMsg (players : List Player) (idx : Nat) (message : String) :
    List Player :=
  players.set idx
    { (players.getD idx default) with
      messages := (players.getD idx default).messages ++ [message] }

/-- `sum(scores) / len(scores) if scores else 0`. -/
def avgScores (l : List ℚ) : ℚ :=
  if l.length ≠ 0 then l.sum / (l.length : ℚ) else 0

/-- Solo branch of `send_backchodi` for the player at index `idx`,
entered after the new message has been appended. -/
def soloStep (O : Oracle) (s : GameSession) (idx : Nat) (message : String) :
    GameSession × SendResult × ScoreLog :=
  let p1 := { (s.players.getD idx default) with
              messages := (s.players.getD idx default).messages ++ [message] }
  let players1 := appendMsg s.players idx message
  let current_round_num := s.current_round
  let ai_challenge := s.ai_messages.getLastD "General challenge"
  let ctx := "Solo battle round " ++ toString current_round_num
  let sc := O.score message ctx ai_challenge
  let response_text := O.scoreFeedback message ctx ai_challenge
  let p2 := { p1 with score := p1.score + sc }
  let players2 := players1.set idx p2
  let round2 := s.current_round + 1
  if round2 ≤ s.max_rounds then
    let ai_response := O.genBackchodi
      ("Counter-attack round " ++ toString round2) p2.name
    let s2 := { s with players := players2, current_round := round2,
                       ai_messages := s.ai_messages ++ [ai_response] }
    (s2,
      .soloRound current_round_num s.max_rounds sc response_text
        p2.score round2 ai_response,
      [(message, ai_challenge)])
  else
    let s2 := { s with players := players2, current_round := round2,
                       state := .finished }
    let final_score := p2.score / (s.max_rounds : ℚ)
    let verdict := O.verdict final_score p2.name
    (s2,
      .soloFinished current_round_num s.max_rounds sc response_text
        p2.score final_score verdict,
      [(message, ai_challenge)])

/-- The `ai_challenge` used when scoring every duel message at finish:
`"Duel topic: "` plus content-log entry 0 (or the fallback when empty). -/
def duelTopic (s : GameSession) : String :=
  "Duel topic: " ++ s.ai_messages.headD "General duel topic"

/-- Whom the duel waiting text says the game is waiting for
(`other_player.name if other_player and cnt % 2 == 1 else "next round"`). -/
def waitingFor (players1 : List Player) (player_name : String) (cnt : Nat) :
    String :=
  match players1.find? (fun p => p.name ≠ player_name) with
  | some q => if cnt % 2 = 1 then q.name else "next round"
  | none => "next round"

/-- Average score a player receives at duel finish: every message ever
sent, scored against the duel topic, averaged (0 if no messages). -/
def duelAvg (O : Oracle) (s : GameSession) (q : Player) : ℚ :=
  avgScores (q.messages.map
    (fun m => O.score m ("Duel evaluation - " ++ q.name) (duelTopic s)))

/-- The duel finish computation: re-score both message logs, set the
per-player averages, pick the winner by strict comparison, finish. -/
def duelFinishOf (O : Oracle) (s : GameSession) (players1 : List Player) :
    GameSession × SendResult × ScoreLog :=
  let q1 := players1.getD 0 default
  let q2 := players1.getD 1 default
  let chall := duelTopic s
  let avg1 := duelAvg O s q1
  let avg2 := duelAvg O s q2
  let w : Option String :=
    if avg2 < avg1 then some q1.name
    else if avg1 < avg2 then some q2.name
    else none
  let players2 :=
    (players1.set 0 { q1 with score := avg1 }).set 1 { q2 with score := avg2 }
  ({ s with players := players2, current_round := s.current_round + 1,
            state := .finished, winner := w },
   .duelFinished q1.name avg1 q2.name avg2
     (O.winnerAnnouncement q1.name avg1 q2.name avg2),
   q1.messages.map (fun m => (m, chall)) ++
     q2.messages.map (fun m => (m, chall)))

/-- Duel branch of `send_backchodi` for the player at index `idx`,
entered after the new message has been appended.  The Python
`IndexError` on `players[0]` / `players[1]` becomes an internal error. -/
def duelStep (O : Oracle) (s : GameSession) (idx : Nat)
    (player_name message : String) :
    Except McpErr (GameSession × SendResult × ScoreLog) :=
  let players1 := appendMsg s.players idx message
  let cnt := totalMsgs players1
  if cnt % 2 = 0 then
    let round2 := s.current_round + 1
    if s.max_rounds < round2 then
      match players1[0]?, players1[1]? with
      | some _, some _ => .ok (duelFinishOf O s players1)
      | _, _ => .error (.internalError "list index out of range")
    else
      let wmsg := O.waitingMessage "duel battle waiting"
      let s2 := { s with players := players1, current_round := round2 }
      .ok (s2, .duelWaiting round2 s.max_rounds cnt
        (waitingFor players1 player_name cnt) wmsg, [])
  else
    let wmsg := O.waitingMessage "duel battle waiting"
    let s2 := { s with players := players1 }
    .ok (s2, .duelWaiting s.current_round s.max_rounds cnt
      (waitingFor players1 player_name cnt) wmsg, [])

/-- Body of `send_backchodi` acting on one session (already looked up).
Returns the mutated session, the structured result, and the log of
(message, ai_challenge) pairs passed to `score_message_with_grok`. -/
def sendSession (O : Oracle) (s : GameSession) (player_name message : String) :
    Except McpErr (GameSession × SendResult × ScoreLog) :=
  if s.state ≠ GameState.active ∧ s.state ≠ GameState.scoring then
    .ok (s, .notActive, [])
  else
    match s.players.findIdx? (fun p => p.name = player_name) with
    | none => .ok (s, .playerNotFound, [])
    | some idx =>
        match s.mode with
        | .solo => .ok (soloStep O s idx message)
        | .duel => duelStep O s idx player_name message

/-- `start_backchodi_battle` at store level. -/
def start_backchodi_battle (O : Oracle) (store : Store) (uid : String)
    (mode : GameMode) (player_name suffix : String) (now : ℚ) :
    Except McpErr (Store × StartResult) :=
  match _user_sessions store uid with
  | .error e => .error e
  | .ok (store1, bucket) =>
      let (bucket1, r) := startBucket O bucket uid mode player_name suffix now
      .ok (insertAssoc store1 uid bucket1, r)

/-- `join_battle` at store level. -/
def join_battle (O : Oracle) (store : Store) (uid session_id player_name : String) :
    Except McpErr (Store × JoinResult) :=
  match _user_sessions store uid with
  | .error e => .error e
  | .ok (store1, bucket) =>
      match bucket.lookup session_id with
      | none => .ok (insertAssoc store1 uid bucket, .invalidSession)
      | some s =>
          match joinSession O s player_name with
          | .error e => .error e
          | .ok (s1, r) =>
              .ok (insertAssoc store1 uid (insertAssoc bucket session_id s1), r)

/-- `send_backchodi` at store level. -/
def send_backchodi (O : Oracle) (store : Store)
    (uid session_id player_name message : String) :
    Except McpErr (Store × SendResult × ScoreLog) :=
  match _user_sessions store uid with
  | .error e => .error e
  | .ok (store1, bucket) =>
      match bucket.lookup session_id with
      | none => .ok (insertAssoc store1 uid bucket, .invalidSession, [])
      | some s =>
          match sendSession O s player_name message with
          | .error e => .error e
          | .ok (s1, r, log) =>
              .ok (insertAssoc store1 uid (insertAssoc bucket session_id s1), r, log)

/-- The score granted for one solo submission: the oracle's answer for
this message, the current-round context, and the latest challenge. -/
def soloScore (O : Oracle) (s : GameSession) (message : String) : ℚ :=
  O.score message ("Solo battle round " ++ toString s.current_round)
    (s.ai_messages.getLastD "General challenge")

/-! ## Well-formedness and concrete instances -/

/-- The part of the session invariant that keeps every Python list index
in `join_battle` / `send_backchodi` in bounds. -/
def WFSession (s : GameSession) : Prop :=
  (s.state = GameState.waiting → s.players ≠ []) ∧
  (s.mode = GameMode.duel → s.state ≠ GameState.waiting → 2 ≤ s.players.length)

/-- A bucket whose sessions are all well-formed. -/
def WFBucket (b : Bucket) : Prop := ∀ e ∈ b, WFSession e.2

/-- A fixed deterministic oracle, used to instantiate theorems on
concrete runs. -/
def constOracle : Oracle where
  genBackchodi := fun _ _ => "g"
  score := fun _ _ _ => 7
  scoreFeedback := fun _ _ _ => "f"
  verdict := fun _ _ => "v"
  winnerAnnouncement := fun _ _ _ _ => "w"
  waitingMessage := fun _ => "z"

/-- A freshly created duel session (caller `"u"`, player `"A"`). -/
def demoWaiting : GameSession := createSession "u" "x" 0 GameMode.duel "A" "g"

/-- `demoWaiting` after `"B"` joins. -/
def demoJoined : GameSession :=
  match joinSession constOracle demoWaiting "B" with
  | .ok (s, _) => s
  | .error _ => demoWaiting

/-- A freshly created solo session (caller `"u"`, player `"Ravi"`). -/
def demoSolo : GameSession := createSession "u" "y" 0 GameMode.solo "Ravi" "g"

/-- One `send_backchodi` step by player `"A"` under `constOracle`. -/
def sendA (s : GameSession) (m : String) : GameSession :=
  match sendSession constOracle s "A" m with
  | .ok (s', _, _) => s'
  | .error _ => s

/-- `demoJoined` after `"A"` alone has submitted `n` messages. -/
def soloDriverRun (n : Nat) : GameSession :=
  (List.range n).foldl (fun s i => sendA s (toString i)) demoJoined

/-! ## Reachability and structural invariants -/

/-- Sessions reachable through the engine: created by
`start_backchodi_battle` and evolved by `join_battle` / `send_backchodi`
steps, over arbitrary oracle runs and arguments. -/
inductive Reachable : GameSession → Prop
  | created (uid suffix : String) (now : ℚ) (mode : GameMode)
      (pname opener : String) :
      Reachable (createSession uid suffix now mode pname opener)
  | joined {s s' : GameSession} {r : JoinResult} (O : Oracle) (pname : String) :
      Reachable s → joinSession O s pname = .ok (s', r) → Reachable s'
  | sent {s s' : GameSession} {r : SendResult} {log : ScoreLog}
      (O : Oracle) (pname msg : String) :
      Reachable s → sendSession O s pname msg = .ok (s', r, log) → Reachable s'

/-- The structural invariant maintained by the engine. -/
def SessionInv (s : GameSession) : Prop :=
  (s.state = GameState.waiting → s.mode = GameMode.duel ∧ s.players.length = 1) ∧
  (s.mode = GameMode.solo → s.players.length = 1) ∧
  (s.mode = GameMode.duel → s.state ≠ GameState.waiting → s.players.length = 2) ∧
  (s.winner ≠ none → s.mode = GameMode.duel ∧ s.state = GameState.finished)

lemma appendMsg_length (players : List Player) (idx : Nat) (m : String) :
    (appendMsg players idx m).length = players.length := by
  simp [appendMsg]

lemma soloStep_shape (O : Oracle) (s : GameSession) (idx : Nat) (m : String) :
    ((soloStep O s idx m).1.mode = s.mode ∧
     (soloStep O s idx m).1.players.length = s.players.length ∧
     (soloStep O s idx m).1.max_rounds = s.max_rounds ∧
     (soloStep O s idx m).1.winner = s.winner ∧
     ((soloStep O s idx m).1.state = s.state ∨
       (soloStep O s idx m).1.state = GameState.finished)) := by
  simp only [soloStep]
  split <;> simp [appendMsg]

lemma duelStep_ok_shape {O : Oracle} {s : GameSession} {idx : Nat}
    {pn m : String} {s' : GameSession} {r : SendResult} {log : ScoreLog}
    (h : duelStep O s idx pn m = .ok (s', r, log)) :
    s'.mode = s.mode ∧ s'.players.length = s.players.length ∧
    s'.max_rounds = s.max_rounds ∧
    (s'.winner = s.winner ∨ s'.state = GameState.finished) ∧
    (s'.state = s.state ∨ s'.state = GameState.finished) := by
  simp only [duelStep] at h
  split at h
  · split at h
    · split at h
      · simp only [Except.ok.injEq] at h
        have h1 : (duelFinishOf O s (appendMsg s.players idx m)).1 = s' := by
          rw [h]
        subst h1
        simp [duelFinishOf, appendMsg]
      · cases h
    · simp only [Except.ok.injEq, Prod.mk.injEq] at h
      obtain ⟨h1, -, -⟩ := h
      subst h1
      simp [appendMsg]
  · simp only [Except.ok.injEq, Prod.mk.injEq] at h
    obtain ⟨h1, -, -⟩ := h
    subst h1
    simp [appendMsg]

lemma sendSession_ok_shape {O : Oracle} {s : GameSession} {pn m : String}
    {s' : GameSession} {r : SendResult} {log : ScoreLog}
    (h : sendSession O s pn m = .ok (s', r, log)) :
    s'.mode = s.mode ∧ s'.players.length = s.players.length ∧
    s'.max_rounds = s.max_rounds ∧
    ((s.state ≠ GameState.active ∧ s.state ≠ GameState.scoring) → s' = s) ∧
    (s'.state = s.state ∨ s'.state = GameState.finished) ∧
    (s'.winner = s.winner ∨
      (s'.state = GameState.finished ∧ s.mode = GameMode.duel)) := by
  simp only [sendSession] at h
  split at h
  case isTrue hst =>
    simp only [Except.ok.injEq, Prod.mk.injEq] at h
    obtain ⟨h1, -, -⟩ := h
    subst h1
    simp
  case isFalse hst =>
    split at h
    · simp only [Except.ok.injEq, Prod.mk.injEq] at h
      obtain ⟨h1, -, -⟩ := h
      subst h1
      simp [hst]
    · rename_i idx hidx
      cases hm : s.mode
      · rw [hm] at h
        simp only [Except.ok.injEq] at h
        have h1 : (soloStep O s idx m).1 = s' := by rw [h]
        have hs := soloStep_shape O s idx m
        rw [h1] at hs
        exact ⟨hs.1.trans hm, hs.2.1, hs.2.2.1,
          fun hc => absurd hc (by simpa using hst),
          hs.2.2.2.2, Or.inl hs.2.2.2.1⟩
      · rw [hm] at h
        have hs := duelStep_ok_shape h
        refine ⟨hs.1.trans hm, hs.2.1, hs.2.2.1,
          fun hc => absurd hc (by simpa using hst), hs.2.2.2.2, ?_⟩
        rcases hs.2.2.2.1 with hw | hw
        · exact Or.inl hw
        · exact Or.inr ⟨hw, rfl⟩

lemma joinSession_ok_shape {O : Oracle} {s : GameSession} {pn : String}
    {s' : GameSession} {r : JoinResult}
    (h : joinSession O s pn = .ok (s', r)) :
    s' = s ∨
    (s.mode = GameMode.duel ∧ s.state = GameState.waiting ∧
      s.players.length < 2 ∧ s' = joinedSession O s pn) := by
  simp only [joinSession] at h
  split at h
  · simp only [Except.ok.injEq, Prod.mk.injEq] at h
    exact Or.inl h.1.symm
  · split at h
    · simp only [Except.ok.injEq, Prod.mk.injEq] at h
      exact Or.inl h.1.symm
    · split at h
      · simp only [Except.ok.injEq, Prod.mk.injEq] at h
        exact Or.inl h.1.symm
      · split at h
        · simp only [Except.ok.injEq, Prod.mk.injEq] at h
          refine Or.inr ⟨by simpa using ‹¬s.mode ≠ GameMode.duel›,
            by simpa using ‹¬s.state ≠ GameState.waiting›, by omega, h.1.symm⟩
        · cases h

/-- Every reachable session satisfies the structural invariant. -/
lemma reachable_inv {s : GameSession} (h : Reachable s) : SessionInv s := by
  induction h with
  | created uid suffix now mode pname opener =>
      cases mode <;> simp [SessionInv, createSession]
  | @joined spre spost rr O pname hs hj ih =>
      rcases joinSession_ok_shape hj with rfl | ⟨hd, hw, hlt, rfl⟩
      · exact ih
      · obtain ⟨inv1, inv2, inv3, inv4⟩ := ih
        have hlen := (inv1 hw).2
        refine ⟨?_, ?_, ?_, ?_⟩
        · intro hc; simp [joinedSession] at hc
        · intro hc; simp [joinedSession, hd] at hc
        · intro _ _; simp [joinedSession, hlen]
        · intro hc
          simp only [joinedSession] at hc
          have hfin := (inv4 hc).2
          rw [hw] at hfin
          simp at hfin
  | @sent spre spost rr lg O pname msg hs hsend ih =>
      obtain ⟨hmode, hlen, hmax, hrej, hstate, hwin⟩ := sendSession_ok_shape hsend
      obtain ⟨inv1, inv2, inv3, inv4⟩ := ih
      by_cases hact : spre.state = GameState.active ∨ spre.state = GameState.scoring
      case neg =>
        have heq : spost = spre := hrej (by push_neg at hact; exact hact)
        rw [heq]
        exact ⟨inv1, inv2, inv3, inv4⟩
      case pos =>
      have hsw : spre.state ≠ GameState.waiting := by
        rcases hact with h2 | h2 <;> simp [h2]
      refine ⟨?_, ?_, ?_, ?_⟩
      · intro hc
        rcases hstate with h1 | h1 <;> rw [hc] at h1
        · rcases hact with h2 | h2 <;> rw [h2] at h1 <;> simp at h1
        · simp at h1
      · intro hc
        have hms : spre.mode = GameMode.solo := by rw [← hmode]; exact hc
        rw [hlen]
        exact inv2 hms
      · intro hmd _
        have hd : spre.mode = GameMode.duel := by rw [← hmode]; exact hmd
        rw [hlen]
        exact inv3 hd hsw
      · intro hc
        rcases hwin with h1 | ⟨hf, hd⟩
        · rw [h1] at hc
          have hfin := (inv4 hc).2
          exact absurd hfin (by rcases hact with h2 | h2 <;> simp [h2])
        · exact ⟨by rw [hmode]; exact hd, hf⟩

/-! ## Assoc-list helper lemmas -/

lemma map_keep_of_ne {α : Type} (k : String) (v : α) (l : List (String × α))
    (hl : ∀ e ∈ l, e.1 ≠ k) :
    l.map (fun e => if e.1 = k then (k, v) else e) = l := by
  induction l with
  | nil => rfl
  | cons e t ih =>
      simp only [List.map_cons, List.cons.injEq]
      refine ⟨?_, ih fun x hx => hl x (List.mem_cons_of_mem _ hx)⟩
      rw [if_neg (hl e (List.mem_cons_self _ _))]

lemma insertAssoc_self {α : Type} {l : List (String × α)} {k : String} {v : α}
    (hnd : (l.map Prod.fst).Nodup) (h : l.lookup k = some v) :
    insertAssoc l k v = l := by
  obtain ⟨l₁, l₂, rfl, h₁⟩ := List.lookup_eq_some_iff.mp h
  have hmem : ((k, v) : String × α) ∈ l₁ ++ (k, v) :: l₂ :=
    List.mem_append_right _ (List.mem_cons_self _ _)
  have hany : (l₁ ++ (k, v) :: l₂).any (fun e => e.1 = k) = true :=
    List.any_eq_true.mpr ⟨(k, v), hmem, by simp⟩
  have hl₁ : ∀ e ∈ l₁, e.1 ≠ k := by
    intro e he hc
    have hb := h₁ e he
    simp only [bne_iff_ne, ne_eq] at hb
    exact hb hc.symm
  have hl₂ : ∀ e ∈ l₂, e.1 ≠ k := by
    rw [List.map_append, List.nodup_append] at hnd
    have hnd2 := hnd.2.1
    simp only [List.map_cons, List.nodup_cons] at hnd2
    intro e he hc
    exact hnd2.1 (List.mem_map.mpr ⟨e, he, hc⟩)
  simp only [insertAssoc, hany, if_true]
  simp [List.map_append, map_keep_of_ne k v l₁ hl₁, map_keep_of_ne k v l₂ hl₂]

/-! ## Claim theorems -/

/-- C5: for every input string, the fallback scorer computes base 5.0,
plus 1.0 for length in [20,100] or 0.5 for length over 100, plus 1.0 for
a slang word in the lowercased string, plus 0.5 for an emphasis
character, plus the uniform random draw in [-1,1], clamped to [1,10];
the result is in [1,10] for every input, the empty string included. -/
theorem c5_generate_score_spec (message : String) (r : ℚ)
    (hr : -1 ≤ r ∧ r ≤ 1) :
    generate_score message r =
      max 1 (min 10
        ((5 : ℚ)
          + (if 20 ≤ message.length ∧ message.length ≤ 100 then 1 else 0)
          + (if 100 < message.length then 1/2 else 0)
          + (if slangWords.any (fun w => strContains message.toLower w)
             then 1 else 0)
          + (if emphasisChars.any (fun c => c ∈ message.data)
             then 1/2 else 0)
          + r)) ∧
    1 ≤ generate_score message r ∧ generate_score message r ≤ 10 := by
  refine ⟨?_, ?_, ?_⟩
  · simp only [generate_score]
    split_ifs <;>
      first
        | (exfalso; omega)
        | exact congrArg (fun x => (1 : ℚ) ⊔ (10 ⊓ x)) (by ring)
  · simp only [generate_score]
    exact le_max_left 1 _
  · simp only [generate_score]
    exact max_le (by norm_num) (min_le_left _ _)

/-- Witness for C5 at the empty string with random draw 0. -/
theorem c5_witness :
    1 ≤ generate_score "" 0 ∧ generate_score "" 0 ≤ 10 :=
  ⟨(c5_generate_score_spec "" 0 (by norm_num)).2.1,
   (c5_generate_score_spec "" 0 (by norm_num)).2.2⟩

/-- C1: if the caller's bucket already holds a session in `waiting` or
`active` state, `start_backchodi_battle` (any mode, any player name)
answers with a conflict text that contains an existing in-flight
session's identifier, creates no session and leaves the store unchanged. -/
theorem c1_start_conflict (O : Oracle) (store : Store) (uid : String)
    (mode : GameMode) (pname suffix : String) (now : ℚ) (bucket : Bucket)
    (hnd : (store.map Prod.fst).Nodup)
    (hbk : store.lookup uid = some bucket) (huid : uid ≠ "")
    (hex : ∃ e ∈ bucket, inFlight e.2 = true) :
    ∃ sid,
      start_backchodi_battle O store uid mode pname suffix now =
        .ok (store, .conflict sid) ∧
      (∃ e ∈ bucket, e.2.session_id = sid ∧ inFlight e.2 = true) ∧
      strContains (renderStart (.conflict sid)) sid = true := by
  obtain ⟨e0, he0, hf0⟩ := hex
  have hfil : bucket.filter (fun e => inFlight e.2) ≠ [] :=
    List.ne_nil_of_mem (List.mem_filter.mpr ⟨he0, hf0⟩)
  match hm : bucket.filter (fun e => inFlight e.2) with
  | [] => exact absurd hm hfil
  | e :: es =>
    have hmem : e ∈ bucket ∧ inFlight e.2 = true := by
      have : e ∈ bucket.filter (fun x => inFlight x.2) := by
        rw [hm]; exact List.mem_cons_self _ _
      exact List.mem_filter.mp this
    refine ⟨e.2.session_id, ?_, ⟨e, hmem.1, rfl, hmem.2⟩, ?_⟩
    · simp only [start_backchodi_battle, _user_sessions, huid, if_false,
        hbk, startBucket, hm]
      rw [insertAssoc_self hnd hbk]
    · simp only [renderStart, strContains, decide_eq_true_eq,
        String.data_append]
      exact (List.suffix_append _ _).isInfix

/-- Witness for C1: a store whose caller `"u"` has one waiting session. -/
theorem c1_witness :
    ∃ sid,
      start_backchodi_battle constOracle [("u", [("u_x", demoWaiting)])] "u"
          GameMode.solo "C" "zz" 3 =
        .ok ([("u", [("u_x", demoWaiting)])], .conflict sid) ∧
      (∃ e ∈ [("u_x", demoWaiting)], e.2.session_id = sid ∧
        inFlight e.2 = true) ∧
      strContains (renderStart (.conflict sid)) sid = true :=
  c1_start_conflict constOracle [("u", [("u_x", demoWaiting)])] "u"
    GameMode.solo "C" "zz" 3 [("u_x", demoWaiting)] (by decide) (by decide)
    (by decide) ⟨("u_x", demoWaiting), by decide, by decide⟩

/-- C6: a successful create (no in-flight session in the bucket) yields,
in solo mode, an `active` session at round 1 with one player and exactly
the opening challenge in the content log; in duel mode, a `waiting`
session at round 0 with one player and an empty content log. -/
theorem c6_create_fields (O : Oracle) (bucket : Bucket)
    (uid pname suffix : String) (now : ℚ)
    (hno : bucket.filter (fun e => inFlight e.2) = []) :
    (startBucket O bucket uid GameMode.solo pname suffix now =
        (insertAssoc bucket (uid ++ "_" ++ suffix)
          (createSession uid suffix now GameMode.solo pname
            (O.genBackchodi "Solo battle start" pname)),
         .soloStarted (uid ++ "_" ++ suffix) 1 5
           (O.genBackchodi "Solo battle start" pname)) ∧
      (createSession uid suffix now GameMode.solo pname
        (O.genBackchodi "Solo battle start" pname)).state = GameState.active ∧
      (createSession uid suffix now GameMode.solo pname
        (O.genBackchodi "Solo battle start" pname)).current_round = 1 ∧
      (createSession uid suffix now GameMode.solo pname
        (O.genBackchodi "Solo battle start" pname)).players.length = 1 ∧
      (createSession uid suffix now GameMode.solo pname
        (O.genBackchodi "Solo battle start" pname)).ai_messages =
        [O.genBackchodi "Solo battle start" pname]) ∧
    (startBucket O bucket uid GameMode.duel pname suffix now =
        (insertAssoc bucket (uid ++ "_" ++ suffix)
          (createSession uid suffix now GameMode.duel pname
            (O.genBackchodi "Solo battle start" pname)),
         .duelCreated (uid ++ "_" ++ suffix) pname) ∧
      (createSession uid suffix now GameMode.duel pname
        (O.genBackchodi "Solo battle start" pname)).state = GameState.waiting ∧
      (createSession uid suffix now GameMode.duel pname
        (O.genBackchodi "Solo battle start" pname)).current_round = 0 ∧
      (createSession uid suffix now GameMode.duel pname
        (O.genBackchodi "Solo battle start" pname)).players.length = 1 ∧
      (createSession uid suffix now GameMode.duel pname
        (O.genBackchodi "Solo battle start" pname)).ai_messages = []) := by
  constructor
  · refine ⟨?_, rfl, rfl, rfl, rfl⟩
    simp [startBucket, hno, createSession]
  · refine ⟨?_, rfl, rfl, rfl, rfl⟩
    simp [startBucket, hno, createSession]

/-- Witness for C6 at the empty bucket. -/
theorem c6_witness :
    startBucket constOracle [] "u" GameMode.solo "Ravi" "y" 0 =
      ([("u_y", createSession "u" "y" 0 GameMode.solo "Ravi" "g")],
       .soloStarted "u_y" 1 5 "g") :=
  ((c6_create_fields constOracle [] "u" "Ravi" "y" 0 rfl).1).1

lemma joinSession_success (O : Oracle) (s : GameSession) (pn : String)
    (hd : s.mode = GameMode.duel) (hw : s.state = GameState.waiting)
    (hlen : s.players.length = 1) :
    joinSession O s pn =
      .ok (joinedSession O s pn,
        .joined (s.players.getD 0 default).name pn 1 s.max_rounds
          (joinOpener O s pn)) := by
  obtain ⟨a, ha⟩ := List.length_eq_one.mp hlen
  simp only [joinSession, hd, hw, hlen]
  norm_num
  simp [ha, joinedSession, joinOpener]

lemma joinSession_reject (O : Oracle) (s : GameSession) (pn : String)
    (h : s.mode ≠ GameMode.duel ∨ s.state ≠ GameState.waiting ∨
      2 ≤ s.players.length) :
    ∃ r, joinSession O s pn = .ok (s, r) ∧ r.isJoined = false := by
  by_cases h1 : s.mode = GameMode.duel
  · by_cases h2 : s.state = GameState.waiting
    · have h3 : 2 ≤ s.players.length := by tauto
      exact ⟨.battleFull, by simp [joinSession, h1, h2, h3], rfl⟩
    · exact ⟨.notAccepting, by simp [joinSession, h1, h2], rfl⟩
  · exact ⟨.notDuel, by simp [joinSession, h1], rfl⟩

/-- C7: `join_battle` on a session found in the caller's bucket rejects
in-band (session unchanged) when the mode is not duel, the state is not
`waiting`, or two players are registered; otherwise it registers player
2, activates the session at round 1 and appends one opening challenge. -/
theorem c7_join (O : Oracle) (s : GameSession) (pn : String) :
    ((s.mode ≠ GameMode.duel ∨ s.state ≠ GameState.waiting ∨
        2 ≤ s.players.length) →
      ∃ r, joinSession O s pn = .ok (s, r) ∧ r.isJoined = false) ∧
    (s.mode = GameMode.duel → s.state = GameState.waiting →
      s.players.length = 1 →
      joinSession O s pn =
        .ok (joinedSession O s pn,
          .joined (s.players.getD 0 default).name pn 1 s.max_rounds
            (joinOpener O s pn)) ∧
      (joinedSession O s pn).players =
        s.players ++ [{ id := "player_2", name := pn }] ∧
      (joinedSession O s pn).state = GameState.active ∧
      (joinedSession O s pn).current_round = 1 ∧
      (joinedSession O s pn).ai_messages =
        s.ai_messages ++ [joinOpener O s pn]) := by
  constructor
  · exact joinSession_reject O s pn
  · intro hd hw hlen
    exact ⟨joinSession_success O s pn hd hw hlen, rfl, rfl, rfl, rfl⟩

/-- Witness for C7: `"B"` joins the demo waiting duel session. -/
theorem c7_witness :
    joinSession constOracle demoWaiting "B" =
      .ok (joinedSession constOracle demoWaiting "B",
        .joined (demoWaiting.players.getD 0 default).name "B" 1
          demoWaiting.max_rounds (joinOpener constOracle demoWaiting "B")) ∧
    (joinedSession constOracle demoWaiting "B").players =
      demoWaiting.players ++ [{ id := "player_2", name := "B" }] ∧
    (joinedSession constOracle demoWaiting "B").state = GameState.active ∧
    (joinedSession constOracle demoWaiting "B").current_round = 1 ∧
    (joinedSession constOracle demoWaiting "B").ai_messages =
      demoWaiting.ai_messages ++ [joinOpener constOracle demoWaiting "B"] :=
  (c7_join constOracle demoWaiting "B").2 rfl rfl rfl

lemma sendSession_eq_soloStep {O : Oracle} {s : GameSession} {pn m : String}
    {idx : Nat}
    (hstate : s.state = GameState.active ∨ s.state = GameState.scoring)
    (hmode : s.mode = GameMode.solo)
    (hidx : s.players.findIdx? (fun p => p.name = pn) = some idx) :
    sendSession O s pn m = .ok (soloStep O s idx m) := by
  rcases hstate with h | h <;> simp [sendSession, h, hidx, hmode]

lemma sendSession_eq_duelStep {O : Oracle} {s : GameSession} {pn m : String}
    {idx : Nat}
    (hstate : s.state = GameState.active ∨ s.state = GameState.scoring)
    (hmode : s.mode = GameMode.duel)
    (hidx : s.players.findIdx? (fun p => p.name = pn) = some idx) :
    sendSession O s pn m = duelStep O s idx pn m := by
  rcases hstate with h | h <;> simp [sendSession, h, hidx, hmode]

/-- C2: in an active solo session, an accepted submission increments
`current_round` by exactly 1, adds one oracle score (in [1,10] by the
scoring contract) to the player's running total, finishes exactly when
the incremented round exceeds `max_rounds`, and at finish reports the
average `total_score / max_rounds`. -/
theorem c2_solo_round (O : Oracle) (s : GameSession) (pn m : String)
    (idx : Nat)
    (hmode : s.mode = GameMode.solo)
    (hstate : s.state = GameState.active)
    (hidx : s.players.findIdx? (fun p => p.name = pn) = some idx)
    (hrange : ∀ x c ch, 1 ≤ O.score x c ch ∧ O.score x c ch ≤ 10) :
    ∃ s' r log, sendSession O s pn m = .ok (s', r, log) ∧
      s'.current_round = s.current_round + 1 ∧
      (s'.state = GameState.finished ↔ s.max_rounds < s.current_round + 1) ∧
      (1 ≤ soloScore O s m ∧ soloScore O s m ≤ 10) ∧
      (s'.players.getD idx default).score =
        (s.players.getD idx default).score + soloScore O s m ∧
      (s.max_rounds < s.current_round + 1 →
        r = .soloFinished s.current_round s.max_rounds (soloScore O s m)
              (O.scoreFeedback m
                ("Solo battle round " ++ toString s.current_round)
                (s.ai_messages.getLastD "General challenge"))
              ((s.players.getD idx default).score + soloScore O s m)
              (((s.players.getD idx default).score + soloScore O s m) /
                (s.max_rounds : ℚ))
              (O.verdict
                (((s.players.getD idx default).score + soloScore O s m) /
                  (s.max_rounds : ℚ))
                (s.players.getD idx default).name)) := by
  obtain ⟨hlt, -, -⟩ := List.findIdx?_eq_some_iff_getElem.mp hidx
  refine ⟨(soloStep O s idx m).1, (soloStep O s idx m).2.1,
    (soloStep O s idx m).2.2,
    sendSession_eq_soloStep (Or.inl hstate) hmode hidx, ?_⟩
  by_cases hfin : s.current_round + 1 ≤ s.max_rounds
  · have hng : ¬s.max_rounds < s.current_round + 1 := by omega
    refine ⟨?_, ?_, hrange m _ _, ?_, ?_⟩
    · simp [soloStep, hfin]
    · simp [soloStep, hfin, hstate, hng]
    · simp [soloStep, hfin, appendMsg, List.set_set,
        List.getD_eq_getElem?_getD, List.getElem?_set_self, hlt, soloScore]
    · intro hc; exact absurd hc hng
  · have hgt : s.max_rounds < s.current_round + 1 := by omega
    refine ⟨?_, ?_, hrange m _ _, ?_, ?_⟩
    · simp [soloStep, hfin]
    · simp [soloStep, hfin, hgt]
    · simp [soloStep, hfin, appendMsg, List.set_set,
        List.getD_eq_getElem?_getD, List.getElem?_set_self, hlt, soloScore]
    · intro _
      simp only [soloStep, if_neg hfin, soloScore]

/-- Witness for C2: `"Ravi"` submits in the demo solo session. -/
theorem c2_witness :
    ∃ s' r log,
      sendSession constOracle demoSolo "Ravi" "hello" = .ok (s', r, log) ∧
      s'.current_round = demoSolo.current_round + 1 ∧
      (s'.state = GameState.finished ↔
        demoSolo.max_rounds < demoSolo.current_round + 1) ∧
      (1 ≤ soloScore constOracle demoSolo "hello" ∧
        soloScore constOracle demoSolo "hello" ≤ 10) ∧
      (s'.players.getD 0 default).score =
        (demoSolo.players.getD 0 default).score +
          soloScore constOracle demoSolo "hello" ∧
      (demoSolo.max_rounds < demoSolo.current_round + 1 →
        r = .soloFinished demoSolo.current_round demoSolo.max_rounds
              (soloScore constOracle demoSolo "hello")
              (constOracle.scoreFeedback "hello"
                ("Solo battle round " ++ toString demoSolo.current_round)
                (demoSolo.ai_messages.getLastD "General challenge"))
              ((demoSolo.players.getD 0 default).score +
                soloScore constOracle demoSolo "hello")
              (((demoSolo.players.getD 0 default).score +
                soloScore constOracle demoSolo "hello") /
                (demoSolo.max_rounds : ℚ))
              (constOracle.verdict
                (((demoSolo.players.getD 0 default).score +
                  soloScore constOracle demoSolo "hello") /
                  (demoSolo.max_rounds : ℚ))
                (demoSolo.players.getD 0 default).name)) :=
  c2_solo_round constOracle demoSolo "Ravi" "hello" 0 rfl rfl (by decide)
    (fun _ _ _ => ⟨by norm_num [constOracle], by norm_num [constOracle]⟩)

lemma getD_one_set_set (X : List Player) (a b : Player) (h : 1 < X.length) :
    ((X.set 0 a).set 1 b).getD 1 default = b := by
  have h1 : 1 < (X.set 0 a).length := by simpa using h
  simp [List.getD_eq_getElem?_getD, List.getElem?_set_self h1]

lemma duelStep_eq_oddWait {O : Oracle} {s : GameSession} {idx : Nat}
    {pn m : String}
    (hodd : totalMsgs (appendMsg s.players idx m) % 2 ≠ 0) :
    duelStep O s idx pn m =
      .ok ({ s with players := appendMsg s.players idx m },
        .duelWaiting s.current_round s.max_rounds
          (totalMsgs (appendMsg s.players idx m))
          (waitingFor (appendMsg s.players idx m) pn
            (totalMsgs (appendMsg s.players idx m)))
          (O.waitingMessage "duel battle waiting"), []) := by
  simp [duelStep, hodd]

lemma duelStep_eq_evenWait {O : Oracle} {s : GameSession} {idx : Nat}
    {pn m : String}
    (heven : totalMsgs (appendMsg s.players idx m) % 2 = 0)
    (hcont : ¬ s.max_rounds < s.current_round + 1) :
    duelStep O s idx pn m =
      .ok ({ s with players := appendMsg s.players idx m,
                    current_round := s.current_round + 1 },
        .duelWaiting (s.current_round + 1) s.max_rounds
          (totalMsgs (appendMsg s.players idx m))
          (waitingFor (appendMsg s.players idx m) pn
            (totalMsgs (appendMsg s.players idx m)))
          (O.waitingMessage "duel battle waiting"), []) := by
  simp [duelStep, heven, hcont]

lemma duelStep_eq_finish {O : Oracle} {s : GameSession} {idx : Nat}
    {pn m : String}
    (hlen : 2 ≤ s.players.length)
    (heven : totalMsgs (appendMsg s.players idx m) % 2 = 0)
    (hfin : s.max_rounds < s.current_round + 1) :
    duelStep O s idx pn m =
      .ok (duelFinishOf O s (appendMsg s.players idx m)) := by
  have hl : (appendMsg s.players idx m).length = s.players.length :=
    appendMsg_length s.players idx m
  match h0 : (appendMsg s.players idx m)[0]?,
      h1 : (appendMsg s.players idx m)[1]? with
  | some q0, some q1 =>
      simp [duelStep, heven, hfin, h0, h1]
  | none, _ =>
      have hc := List.getElem?_eq_none_iff.mp h0
      omega
  | some _, none =>
      have hc := List.getElem?_eq_none_iff.mp h1
      omega

/-- C3: in a duel session, an accepted submission increments
`current_round` exactly when the combined message count (after the
append) is even; the session finishes exactly when the incremented round
exceeds `max_rounds`, and at that point the scoring log contains every
message of both players, each scored once against the topic derived from
content-log entry 0. -/
theorem c3_duel_round (O : Oracle) (s : GameSession) (pn m : String)
    (idx : Nat)
    (hmode : s.mode = GameMode.duel)
    (hstate : s.state = GameState.active ∨ s.state = GameState.scoring)
    (hidx : s.players.findIdx? (fun p => p.name = pn) = some idx)
    (hlen : s.players.length = 2) :
    ∃ s' r log, sendSession O s pn m = .ok (s', r, log) ∧
      s'.current_round =
        (if totalMsgs (appendMsg s.players idx m) % 2 = 0
         then s.current_round + 1 else s.current_round) ∧
      (s'.state = GameState.finished ↔
        (totalMsgs (appendMsg s.players idx m) % 2 = 0 ∧
          s.max_rounds < s.current_round + 1)) ∧
      (s'.state = GameState.finished →
        log =
          ((appendMsg s.players idx m).getD 0 default).messages.map
            (fun x => (x, duelTopic s)) ++
          ((appendMsg s.players idx m).getD 1 default).messages.map
            (fun x => (x, duelTopic s))) := by
  have hsend := sendSession_eq_duelStep (O := O) (m := m) hstate hmode hidx
  have hnotfin : s.state ≠ GameState.finished := by
    rcases hstate with h | h <;> simp [h]
  by_cases heven : totalMsgs (appendMsg s.players idx m) % 2 = 0
  · by_cases hfin : s.max_rounds < s.current_round + 1
    · refine ⟨_, _, _, hsend.trans (duelStep_eq_finish (by omega) heven hfin),
        ?_, ?_, ?_⟩
      · simp [duelFinishOf, heven]
      · simp [duelFinishOf, heven, hfin]
      · intro _
        simp [duelFinishOf, duelTopic]
    · refine ⟨_, _, _, hsend.trans (duelStep_eq_evenWait heven hfin), ?_, ?_, ?_⟩
      · simp [heven]
      · exact iff_of_false hnotfin (fun hc => hfin hc.2)
      · intro hc
        exact absurd hc hnotfin
  · refine ⟨_, _, _, hsend.trans (duelStep_eq_oddWait heven), ?_, ?_, ?_⟩
    · simp [heven]
    · exact iff_of_false hnotfin (fun hc => heven hc.1)
    · intro hc
      exact absurd hc hnotfin

/-- Witness for C3: `"A"` submits the 10th message of the demo duel run. -/
theorem c3_witness :
    ∃ s' r log,
      sendSession constOracle (soloDriverRun 9) "A" "9" = .ok (s', r, log) ∧
      s'.current_round =
        (if totalMsgs (appendMsg (soloDriverRun 9).players 0 "9") % 2 = 0
         then (soloDriverRun 9).current_round + 1
         else (soloDriverRun 9).current_round) ∧
      (s'.state = GameState.finished ↔
        (totalMsgs (appendMsg (soloDriverRun 9).players 0 "9") % 2 = 0 ∧
          (soloDriverRun 9).max_rounds < (soloDriverRun 9).current_round + 1)) ∧
      (s'.state = GameState.finished →
        log =
          ((appendMsg (soloDriverRun 9).players 0 "9").getD 0
            default).messages.map
              (fun x => (x, duelTopic (soloDriverRun 9))) ++
          ((appendMsg (soloDriverRun 9).players 0 "9").getD 1
            default).messages.map
              (fun x => (x, duelTopic (soloDriverRun 9)))) :=
  c3_duel_round constOracle (soloDriverRun 9) "A" "9" 0 (by decide)
    (Or.inl (by decide)) (by decide) (by decide)

/-! ## Reachability of the concrete demo run -/

lemma reachable_demoWaiting : Reachable demoWaiting :=
  Reachable.created "u" "x" 0 GameMode.duel "A" "g"

lemma reachable_demoJoined : Reachable demoJoined := by
  have h : joinSession constOracle demoWaiting "B" =
      .ok (demoJoined, JoinResult.joined "A" "B" 1 5 "g") := rfl
  exact Reachable.joined constOracle "B" reachable_demoWaiting h

lemma reachable_sendA {s : GameSession} (h : Reachable s) (m : String) :
    Reachable (sendA s m) := by
  unfold sendA
  split
  · rename_i s' r log heq
    exact Reachable.sent constOracle "A" m h heq
  · exact h

lemma reachable_soloDriverRun (n : Nat) : Reachable (soloDriverRun n) := by
  induction n with
  | zero => exact reachable_demoJoined
  | succ k ih =>
      have hstep : soloDriverRun (k + 1) =
          sendA (soloDriverRun k) (toString k) := by
        simp [soloDriverRun, List.range_succ]
      rw [hstep]
      exact reachable_sendA ih _

/-- C4: at duel finish the session's `winner` is the name of the player
with the strictly higher average, `none` on a tie, with no error raised;
and on every reachable session `winner` is non-`none` only for a duel in
state `finished` (never in solo mode, never before finishing). -/
theorem c4_winner_rule :
    (∀ (O : Oracle) (s : GameSession) (pn m : String) (idx : Nat),
      s.mode = GameMode.duel →
      (s.state = GameState.active ∨ s.state = GameState.scoring) →
      s.players.findIdx? (fun p => p.name = pn) = some idx →
      s.players.length = 2 →
      totalMsgs (appendMsg s.players idx m) % 2 = 0 →
      s.max_rounds < s.current_round + 1 →
      sendSession O s pn m =
        .ok (duelFinishOf O s (appendMsg s.players idx m)) ∧
      (duelFinishOf O s (appendMsg s.players idx m)).1.state =
        GameState.finished ∧
      (duelFinishOf O s (appendMsg s.players idx m)).1.winner =
        (if duelAvg O s ((appendMsg s.players idx m).getD 1 default) <
            duelAvg O s ((appendMsg s.players idx m).getD 0 default)
         then some ((appendMsg s.players idx m).getD 0 default).name
         else if duelAvg O s ((appendMsg s.players idx m).getD 0 default) <
            duelAvg O s ((appendMsg s.players idx m).getD 1 default)
         then some ((appendMsg s.players idx m).getD 1 default).name
         else none) ∧
      (duelAvg O s ((appendMsg s.players idx m).getD 0 default) =
          duelAvg O s ((appendMsg s.players idx m).getD 1 default) →
        (duelFinishOf O s (appendMsg s.players idx m)).1.winner = none)) ∧
    (∀ s : GameSession, Reachable s → s.winner ≠ none →
      s.mode = GameMode.duel ∧ s.state = GameState.finished) := by
  constructor
  · intro O s pn m idx hmode hstate hidx hlen heven hfin
    refine ⟨(sendSession_eq_duelStep (O := O) (m := m) hstate hmode hidx).trans
        (duelStep_eq_finish (by omega) heven hfin), rfl, rfl, ?_⟩
    intro he
    simp only [List.getD_eq_getElem?_getD] at he
    simp [duelFinishOf, he]
  · intro s hr hw
    exact (reachable_inv hr).2.2.2 hw

/-- Witness for C4: the final submission of the demo duel run. -/
theorem c4_witness :
    sendSession constOracle (soloDriverRun 9) "A" "9" =
      .ok (duelFinishOf constOracle (soloDriverRun 9)
        (appendMsg (soloDriverRun 9).players 0 "9")) ∧
    (duelFinishOf constOracle (soloDriverRun 9)
      (appendMsg (soloDriverRun 9).players 0 "9")).1.state =
      GameState.finished ∧
    (duelFinishOf constOracle (soloDriverRun 9)
      (appendMsg (soloDriverRun 9).players 0 "9")).1.winner =
      (if duelAvg constOracle (soloDriverRun 9)
          ((appendMsg (soloDriverRun 9).players 0 "9").getD 1 default) <
          duelAvg constOracle (soloDriverRun 9)
            ((appendMsg (soloDriverRun 9).players 0 "9").getD 0 default)
       then some ((appendMsg (soloDriverRun 9).players 0 "9").getD 0
         default).name
       else if duelAvg constOracle (soloDriverRun 9)
          ((appendMsg (soloDriverRun 9).players 0 "9").getD 0 default) <
          duelAvg constOracle (soloDriverRun 9)
            ((appendMsg (soloDriverRun 9).players 0 "9").getD 1 default)
       then some ((appendMsg (soloDriverRun 9).players 0 "9").getD 1
         default).name
       else none) ∧
    (duelAvg constOracle (soloDriverRun 9)
        ((appendMsg (soloDriverRun 9).players 0 "9").getD 0 default) =
        duelAvg constOracle (soloDriverRun 9)
          ((appendMsg (soloDriverRun 9).players 0 "9").getD 1 default) →
      (duelFinishOf constOracle (soloDriverRun 9)
        (appendMsg (soloDriverRun 9).players 0 "9")).1.winner = none) :=
  c4_winner_rule.1 constOracle (soloDriverRun 9) "A" "9" 0 (by decide)
    (Or.inl (by decide)) (by decide) (by decide) (by decide) (by decide)

/-- C8: every reachable session has exactly 1 player while `waiting`,
exactly 1 player in solo mode throughout, exactly 2 players once a duel
leaves `waiting`; and a session that already has 2 players is never
joined (in-band rejection, session unchanged). -/
theorem c8_player_count (s : GameSession) (h : Reachable s) :
    (s.state = GameState.waiting → s.players.length = 1) ∧
    (s.mode = GameMode.solo → s.players.length = 1) ∧
    (s.mode = GameMode.duel → s.state ≠ GameState.waiting →
      s.players.length = 2) ∧
    (∀ (O : Oracle) (pn : String), 2 ≤ s.players.length →
      ∃ r, joinSession O s pn = .ok (s, r) ∧ r.isJoined = false) := by
  obtain ⟨i1, i2, i3, -⟩ := reachable_inv h
  exact ⟨fun hw => (i1 hw).2, i2, i3,
    fun O pn hf => joinSession_reject O s pn (Or.inr (Or.inr hf))⟩

/-- Witness for C8 at the reachable two-player demo duel session. -/
theorem c8_witness :
    (demoJoined.state = GameState.waiting → demoJoined.players.length = 1) ∧
    (demoJoined.mode = GameMode.solo → demoJoined.players.length = 1) ∧
    (demoJoined.mode = GameMode.duel →
      demoJoined.state ≠ GameState.waiting →
      demoJoined.players.length = 2) ∧
    (∀ (O : Oracle) (pn : String), 2 ≤ demoJoined.players.length →
      ∃ r, joinSession O demoJoined pn = .ok (demoJoined, r) ∧
        r.isJoined = false) :=
  c8_player_count demoJoined reachable_demoJoined

/-- C10: round advancement depends only on message-count parity, so one
player alone can finish a duel; the absent player then gets average 0
with no division error and winner determination completes.  The second
part exhibits a reachable run: `"A"` submits all 10 messages of the demo
duel, the session finishes, `"B"` has no messages and score 0, and the
winner is `"A"`. -/
theorem c10_parity_driver :
    (∀ (O : Oracle) (s : GameSession) (pn m : String) (idx : Nat),
      s.mode = GameMode.duel →
      (s.state = GameState.active ∨ s.state = GameState.scoring) →
      s.players.findIdx? (fun p => p.name = pn) = some idx →
      s.players.length = 2 →
      ((appendMsg s.players idx m).getD 1 default).messages = [] →
      totalMsgs (appendMsg s.players idx m) % 2 = 0 →
      s.max_rounds < s.current_round + 1 →
      sendSession O s pn m =
        .ok (duelFinishOf O s (appendMsg s.players idx m)) ∧
      duelAvg O s ((appendMsg s.players idx m).getD 1 default) = 0 ∧
      (duelFinishOf O s (appendMsg s.players idx m)).1.state =
        GameState.finished ∧
      ((duelFinishOf O s (appendMsg s.players idx m)).1.players.getD 1
        default).score = 0 ∧
      (duelFinishOf O s (appendMsg s.players idx m)).1.winner =
        (if 0 < duelAvg O s ((appendMsg s.players idx m).getD 0 default)
         then some ((appendMsg s.players idx m).getD 0 default).name
         else if duelAvg O s ((appendMsg s.players idx m).getD 0 default) < 0
         then some ((appendMsg s.players idx m).getD 1 default).name
         else none)) ∧
    (Reachable (soloDriverRun 10) ∧
      (soloDriverRun 10).state = GameState.finished ∧
      ((soloDriverRun 10).players.getD 1 default).messages = [] ∧
      ((soloDriverRun 10).players.getD 1 default).score = 0 ∧
      (soloDriverRun 10).winner = some "A") := by
  constructor
  · intro O s pn m idx hmode hstate hidx hlen hB heven hfin
    have hB2 := hB
    simp only [List.getD_eq_getElem?_getD] at hB2
    have havg2 : duelAvg O s ((appendMsg s.players idx m).getD 1 default) = 0 := by
      simp only [List.getD_eq_getElem?_getD]
      simp [duelAvg, avgScores, hB2]
    have havg2e : duelAvg O s ((appendMsg s.players idx m)[1]?.getD default) = 0 := by
      simpa only [List.getD_eq_getElem?_getD] using havg2
    have hx : 1 < (appendMsg s.players idx m).length := by
      rw [appendMsg_length]; omega
    refine ⟨(sendSession_eq_duelStep (O := O) (m := m) hstate hmode hidx).trans
        (duelStep_eq_finish (by omega) heven hfin), havg2, rfl, ?_, ?_⟩
    · simp only [duelFinishOf]
      rw [getD_one_set_set _ _ _ hx]
      exact havg2
    · simp only [duelFinishOf, havg2]
  · have hsend9 : sendSession constOracle (soloDriverRun 9) "A" "9" =
        .ok (duelFinishOf constOracle (soloDriverRun 9)
          (appendMsg (soloDriverRun 9).players 0 "9")) :=
      (sendSession_eq_duelStep (O := constOracle) (m := "9")
        (Or.inl (by decide)) (by decide) (by decide)).trans
        (duelStep_eq_finish (by decide) (by decide) (by decide))
    have h10 : soloDriverRun 10 =
        (duelFinishOf constOracle (soloDriverRun 9)
          (appendMsg (soloDriverRun 9).players 0 "9")).1 := by
      have hrun : soloDriverRun 10 = sendA (soloDriverRun 9) (toString 9) := by
        simp [soloDriverRun, List.range_succ]
      rw [hrun]
      show sendA (soloDriverRun 9) "9" = _
      rw [sendA, hsend9]
    have hmsgs1 : ((appendMsg (soloDriverRun 9).players 0 "9").getD 0
        default).messages =
        ["0", "1", "2", "3", "4", "5", "6", "7", "8", "9"] := by decide
    have hmsgs2 : ((appendMsg (soloDriverRun 9).players 0 "9").getD 1
        default).messages = [] := by decide
    have havg1 : duelAvg constOracle (soloDriverRun 9)
        ((appendMsg (soloDriverRun 9).players 0 "9").getD 0 default) = 7 := by
      rw [duelAvg, hmsgs1]
      simp [avgScores, constOracle]
      norm_num
    have havg2 : duelAvg constOracle (soloDriverRun 9)
        ((appendMsg (soloDriverRun 9).players 0 "9").getD 1 default) = 0 := by
      rw [duelAvg, hmsgs2]
      simp [avgScores]
    have hx : 1 < (appendMsg (soloDriverRun 9).players 0 "9").length := by
      decide
    refine ⟨reachable_soloDriverRun 10, ?_, ?_, ?_, ?_⟩
    · rw [h10]; rfl
    · rw [h10]
      simp only [duelFinishOf]
      rw [getD_one_set_set _ _ _ hx]
      exact hmsgs2
    · rw [h10]
      simp only [duelFinishOf]
      rw [getD_one_set_set _ _ _ hx]
      exact havg2
    · rw [h10]
      simp only [duelFinishOf]
      rw [havg1, havg2]
      norm_num
      decide

/-- Witness for C10: the final submission of the demo duel run, where
`"B"` has no messages. -/
theorem c10_witness :
    sendSession constOracle (soloDriverRun 9) "A" "9" =
      .ok (duelFinishOf constOracle (soloDriverRun 9)
        (appendMsg (soloDriverRun 9).players 0 "9")) ∧
    duelAvg constOracle (soloDriverRun 9)
      ((appendMsg (soloDriverRun 9).players 0 "9").getD 1 default) = 0 ∧
    (duelFinishOf constOracle (soloDriverRun 9)
      (appendMsg (soloDriverRun 9).players 0 "9")).1.state =
      GameState.finished ∧
    ((duelFinishOf constOracle (soloDriverRun 9)
      (appendMsg (soloDriverRun 9).players 0 "9")).1.players.getD 1
        default).score = 0 ∧
    (duelFinishOf constOracle (soloDriverRun 9)
      (appendMsg (soloDriverRun 9).players 0 "9")).1.winner =
      (if 0 < duelAvg constOracle (soloDriverRun 9)
          ((appendMsg (soloDriverRun 9).players 0 "9").getD 0 default)
       then some ((appendMsg (soloDriverRun 9).players 0 "9").getD 0
         default).name
       else if duelAvg constOracle (soloDriverRun 9)
          ((appendMsg (soloDriverRun 9).players 0 "9").getD 0 default) < 0
       then some ((appendMsg (soloDriverRun 9).players 0 "9").getD 1
         default).name
       else none) :=
  c10_parity_driver.1 constOracle (soloDriverRun 9) "A" "9" 0 (by decide)
    (Or.inl (by decide)) (by decide) (by decide) (by decide) (by decide)
    (by decide)

/-! ## C9: protocol-level errors versus in-band failures -/

lemma mem_of_lookup {α : Type} {l : List (String × α)} {k : String} {v : α}
    (h : l.lookup k = some v) : (k, v) ∈ l := by
  obtain ⟨l₁, l₂, rfl, -⟩ := List.lookup_eq_some_iff.mp h
  exact List.mem_append_right _ (List.mem_cons_self _ _)

lemma joinSession_ok (O : Oracle) (s : GameSession) (pn : String)
    (hwf : WFSession s) : ∃ x, joinSession O s pn = .ok x := by
  by_cases h1 : s.mode = GameMode.duel
  · by_cases h2 : s.state = GameState.waiting
    · by_cases h3 : 2 ≤ s.players.length
      · obtain ⟨r, hr, -⟩ := joinSession_reject O s pn (Or.inr (Or.inr h3))
        exact ⟨(s, r), hr⟩
      · have hne := hwf.1 h2
        have hpos := List.length_pos.mpr hne
        have hlen : s.players.length = 1 := by omega
        exact ⟨_, joinSession_success O s pn h1 h2 hlen⟩
    · obtain ⟨r, hr, -⟩ := joinSession_reject O s pn (Or.inr (Or.inl h2))
      exact ⟨(s, r), hr⟩
  · obtain ⟨r, hr, -⟩ := joinSession_reject O s pn (Or.inl h1)
    exact ⟨(s, r), hr⟩

lemma sendSession_ok (O : Oracle) (s : GameSession) (pn m : String)
    (hwf : WFSession s) : ∃ x, sendSession O s pn m = .ok x := by
  by_cases hact : s.state = GameState.active ∨ s.state = GameState.scoring
  · match hidx : s.players.findIdx? (fun p => p.name = pn) with
    | none =>
        refine ⟨(s, .playerNotFound, []), ?_⟩
        rcases hact with h | h <;> simp [sendSession, h, hidx]
    | some idx =>
        cases hmode : s.mode with
        | solo => exact ⟨_, sendSession_eq_soloStep hact hmode hidx⟩
        | duel =>
            have hsend := sendSession_eq_duelStep (O := O) (m := m) hact
              hmode hidx
            by_cases heven : totalMsgs (appendMsg s.players idx m) % 2 = 0
            · by_cases hfin : s.max_rounds < s.current_round + 1
              · have hlen : 2 ≤ s.players.length := by
                  apply hwf.2 hmode
                  rcases hact with h | h <;> simp [h]
                exact ⟨_, hsend.trans (duelStep_eq_finish hlen heven hfin)⟩
              · exact ⟨_, hsend.trans (duelStep_eq_evenWait heven hfin)⟩
            · exact ⟨_, hsend.trans (duelStep_eq_oddWait heven)⟩
  · refine ⟨(s, .notActive, []), ?_⟩
    push_neg at hact
    simp [sendSession, hact.1, hact.2]

/-- C9: an empty caller identifier is the only input that raises a
structured protocol error (the `InvalidArgument` raised by the
session-store accessor, which otherwise returns the caller's bucket,
creating it if absent, idempotently); every operation on a non-empty
caller over a well-formed bucket returns `ok`, with unknown session ids
and unregistered player names reported as in-band results. -/
theorem c9_error_model :
    (∀ store : Store, _user_sessions store "" =
      .error (.invalidParams "puch_user_id is required")) ∧
    (∀ (store : Store) (uid : String), uid ≠ "" →
      ∃ store1 b, _user_sessions store uid = .ok (store1, b) ∧
        _user_sessions store1 uid = .ok (store1, b)) ∧
    (∀ (O : Oracle) (store : Store) (mode : GameMode)
        (pn suffix sid m : String) (now : ℚ),
      start_backchodi_battle O store "" mode pn suffix now =
          .error (.invalidParams "puch_user_id is required") ∧
      join_battle O store "" sid pn =
          .error (.invalidParams "puch_user_id is required") ∧
      send_backchodi O store "" sid pn m =
          .error (.invalidParams "puch_user_id is required")) ∧
    (∀ (O : Oracle) (store store1 : Store) (bucket : Bucket) (uid : String)
        (mode : GameMode) (pn suffix sid m : String) (now : ℚ),
      _user_sessions store uid = .ok (store1, bucket) →
      WFBucket bucket →
      (∃ x, start_backchodi_battle O store uid mode pn suffix now = .ok x) ∧
      (∃ x, join_battle O store uid sid pn = .ok x) ∧
      (∃ x, send_backchodi O store uid sid pn m = .ok x)) ∧
    (∀ (O : Oracle) (store store1 : Store) (bucket : Bucket)
        (uid sid pn m : String),
      _user_sessions store uid = .ok (store1, bucket) →
      bucket.lookup sid = none →
      join_battle O store uid sid pn =
        .ok (insertAssoc store1 uid bucket, .invalidSession) ∧
      send_backchodi O store uid sid pn m =
        .ok (insertAssoc store1 uid bucket, .invalidSession, [])) ∧
    (∀ (O : Oracle) (store store1 : Store) (bucket : Bucket)
        (s : GameSession) (uid sid pn m : String),
      _user_sessions store uid = .ok (store1, bucket) →
      bucket.lookup sid = some s →
      (s.state = GameState.active ∨ s.state = GameState.scoring) →
      s.players.findIdx? (fun p => p.name = pn) = none →
      send_backchodi O store uid sid pn m =
        .ok (insertAssoc store1 uid (insertAssoc bucket sid s),
          .playerNotFound, [])) := by
  refine ⟨?_, ?_, ?_, ?_, ?_, ?_⟩
  · intro store
    simp [_user_sessions]
  · intro store uid h
    match hl : store.lookup uid with
    | some b =>
        exact ⟨store, b, by simp [_user_sessions, h, hl],
          by simp [_user_sessions, h, hl]⟩
    | none =>
        refine ⟨store ++ [(uid, [])], [], by simp [_user_sessions, h, hl], ?_⟩
        simp [_user_sessions, h, List.lookup_append, hl]
  · intro O store mode pn suffix sid m now
    refine ⟨?_, ?_, ?_⟩ <;>
      simp [start_backchodi_battle, join_battle, send_backchodi,
        _user_sessions]
  · intro O store store1 bucket uid mode pn suffix sid m now hus hwf
    refine ⟨?_, ?_, ?_⟩
    · match hsb : startBucket O bucket uid mode pn suffix now with
      | (b1, r) =>
          exact ⟨(insertAssoc store1 uid b1, r),
            by simp [start_backchodi_battle, hus, hsb]⟩
    · match hsid : bucket.lookup sid with
      | none =>
          exact ⟨(insertAssoc store1 uid bucket, .invalidSession),
            by simp [join_battle, hus, hsid]⟩
      | some s0 =>
          obtain ⟨⟨s1, r⟩, hok⟩ :=
            joinSession_ok O s0 pn (hwf _ (mem_of_lookup hsid))
          exact ⟨(insertAssoc store1 uid (insertAssoc bucket sid s1), r),
            by simp [join_battle, hus, hsid, hok]⟩
    · match hsid : bucket.lookup sid with
      | none =>
          exact ⟨(insertAssoc store1 uid bucket, .invalidSession, []),
            by simp [send_backchodi, hus, hsid]⟩
      | some s0 =>
          obtain ⟨⟨s1, r, log⟩, hok⟩ :=
            sendSession_ok O s0 pn m (hwf _ (mem_of_lookup hsid))
          exact ⟨(insertAssoc store1 uid (insertAssoc bucket sid s1), r, log),
            by simp [send_backchodi, hus, hsid, hok]⟩
  · intro O store store1 bucket uid sid pn m hus hsid
    constructor <;> simp [join_battle, send_backchodi, hus, hsid]
  · intro O store store1 bucket s uid sid pn m hus hsid hact hfind
    have hsend : sendSession O s pn m = .ok (s, .playerNotFound, []) := by
      rcases hact with h | h <;> simp [sendSession, h, hfind]
    simp [send_backchodi, hus, hsid, hsend]

/-- Witness for C9: caller `"u"`, a store holding one waiting session,
an unknown session id, and an unregistered player name. -/
theorem c9_witness :
    (∃ x, start_backchodi_battle constOracle [("u", [("u_x", demoWaiting)])]
      "u" GameMode.solo "C" "zz" 3 = .ok x) ∧
    (∃ x, join_battle constOracle [("u", [("u_x", demoWaiting)])]
      "u" "nope" "C" = .ok x) ∧
    (∃ x, send_backchodi constOracle [("u", [("u_x", demoWaiting)])]
      "u" "nope" "C" "hi" = .ok x) :=
  c9_error_model.2.2.2.1 constOracle [("u", [("u_x", demoWaiting)])]
    [("u", [("u_x", demoWaiting)])] [("u_x", demoWaiting)] "u"
    GameMode.solo "C" "zz" "nope" "hi" 3 rfl
    (by intro e he
        simp only [List.mem_singleton] at he
        subst he
        exact ⟨fun _ => by decide, fun hm hw => absurd rfl hw⟩)

end Backchodi
